import Mathlib

/-!
# Verification of the SpeedSnap signal-processing core

Shallow embedding, over `ℚ`, of the signal-processing pipeline of the
speed-snap-pro repository: the two-state Kalman-style estimator
(`src/src/utils/ExtendedKalmanFilter.ts`), the launch-detection state machine
(`LaunchDetector`), the outlier / smoothing / interpolation utilities
(`src/src/utils/DataProcessing.ts`), the GPS position-to-speed pipeline
(`src/src/hooks/useGPSTracking.ts`), the simplified fusion step
(`src/src/hooks/useEnhancedSensorFusion.ts`), and the milestone bookkeeping of
`src/src/components/SpeedSnap.tsx`.

JavaScript numbers are modelled as exact rationals; `Math.sqrt` (which appears
only in the quadratic-root step of the interpolator and in magnitude
computations) is abstracted as an explicit function parameter or replaced by
the equivalent comparison of squares where the compared threshold is
non-negative.
-/

namespace SpeedSnap

/-! ## ExtendedKalmanFilter (src/src/utils/ExtendedKalmanFilter.ts)

The source file contains two versions of the class `ExtendedKalmanFilter`.
The first (`EKF1` below) extrapolates the speed state in `predict` and adds
the process noise unscaled; the second (`EKF2` below) is the conservative
variant: `predict` leaves the state untouched and adds process noise scaled
by `dt`.  Both share the same `update` shape, with different `Q`/`R`
constants. -/

/-- The filter state: state vector `x = [speed (km/h), acceleration (m/s²)]`
and the diagonal of the covariance matrix `P` (the off-diagonal entries are
`0` at construction and are never written by `predict`/`update`/`reset`). -/
structure EKFState where
  x0 : ℚ
  x1 : ℚ
  p00 : ℚ
  p11 : ℚ
deriving DecidableEq, Repr

/-- Shared shape of `update(measurement)`: per-state gain
`K_i = P_ii / (P_ii + R_ii)`, innovation applied independently per state,
covariance shrunk by `(1 - K_i)`. -/
def ekfUpdate (r00 r11 m0 m1 : ℚ) (s : EKFState) : EKFState :=
  let K0 := s.p00 / (s.p00 + r00)
  let K1 := s.p11 / (s.p11 + r11)
  { x0 := s.x0 + K0 * (m0 - s.x0)
    x1 := s.x1 + K1 * (m1 - s.x1)
    p00 := s.p00 * (1 - K0)
    p11 := s.p11 * (1 - K1) }

namespace EKF1

/-- `Q = [[0.005, 0], [0, 0.01]]`, `R = [[0.1, 0], [0, 0.05]]`. -/
def q00 : ℚ := 5/1000
def q11 : ℚ := 1/100
def r00 : ℚ := 1/10
def r11 : ℚ := 5/100

/-- Constructor / `reset()`: `x = [0, 0]`, `P = [[1,0],[0,1]]`. -/
def init : EKFState := ⟨0, 0, 1, 1⟩

/-- First version of `predict(dt)`:
`x[0] += x[1] * dt * 3.6; P[0][0] += Q[0][0]; P[1][1] += Q[1][1]`. -/
def predict (dt : ℚ) (s : EKFState) : EKFState :=
  { s with
    x0 := s.x0 + s.x1 * dt * (36/10)
    p00 := s.p00 + q00
    p11 := s.p11 + q11 }

/-- `update(measurement)` of the first version. -/
def update (m0 m1 : ℚ) (s : EKFState) : EKFState :=
  ekfUpdate r00 r11 m0 m1 s

end EKF1

namespace EKF2

/-- `Q = [[0.001, 0], [0, 0.005]]`, `R = [[0.5, 0], [0, 0.2]]`. -/
def q00 : ℚ := 1/1000
def q11 : ℚ := 5/1000
def r00 : ℚ := 1/2
def r11 : ℚ := 1/5

/-- Constructor / `reset()`: `x = [0, 0]`, `P = [[1,0],[0,1]]`. -/
def init : EKFState := ⟨0, 0, 1, 1⟩

/-- Second (conservative) version of `predict(dt)`: the state vector is not
touched; `P[0][0] += Q[0][0] * dt; P[1][1] += Q[1][1] * dt`. -/
def predict (dt : ℚ) (s : EKFState) : EKFState :=
  { s with
    p00 := s.p00 + q00 * dt
    p11 := s.p11 + q11 * dt }

/-- `update(measurement)` of the second version. -/
def update (m0 m1 : ℚ) (s : EKFState) : EKFState :=
  ekfUpdate r00 r11 m0 m1 s

end EKF2

/-- One call into the filter: either `predict(dt)` or `update([m0, m1])`. -/
inductive EKFOp where
  | predict (dt : ℚ)
  | update (m0 m1 : ℚ)
deriving DecidableEq, Repr

/-- `dt ≥ 0` for `predict` calls (no constraint on `update` calls). -/
def EKFOp.dtOk : EKFOp → Bool
  | .predict dt => decide (0 ≤ dt)
  | .update _ _ => true

def EKF1.step (s : EKFState) : EKFOp → EKFState
  | .predict dt => EKF1.predict dt s
  | .update m0 m1 => EKF1.update m0 m1 s

def EKF2.step (s : EKFState) : EKFOp → EKFState
  | .predict dt => EKF2.predict dt s
  | .update m0 m1 => EKF2.update m0 m1 s

/-- Run a sequence of calls against the first version, starting from reset. -/
def EKF1.run (ops : List EKFOp) : EKFState := ops.foldl EKF1.step EKF1.init

/-- Run a sequence of calls against the second version, starting from reset. -/
def EKF2.run (ops : List EKFOp) : EKFState := ops.foldl EKF2.step EKF2.init

/-! ## DataProcessing (src/src/utils/DataProcessing.ts) -/

/-- `DataPoint { time (s), speed (km/h) }`. -/
structure DataPoint where
  time : ℚ
  speed : ℚ
deriving DecidableEq, Repr

namespace OutlierDetector

/-- `median(values)`: sort ascending (JS `sort((a,b) => a-b)`), take the middle
element, or the mean of the two middle elements for even length. -/
def median (values : List ℚ) : ℚ :=
  let sorted := values.insertionSort (· ≤ ·)
  let mid := sorted.length / 2
  if sorted.length % 2 = 1 then sorted.getD mid 0
  else (sorted.getD (mid - 1) 0 + sorted.getD mid 0) / 2

/-- `medianAbsoluteDeviation(values)`. -/
def medianAbsoluteDeviation (values : List ℚ) : ℚ :=
  median (values.map fun v => |v - median values|)

/-- `detectOutliers(data)`: Modified Z-Score `0.6745 * (speed - median) / MAD`
against the threshold; if `MAD = 0` no point is flagged. -/
def detectOutliers (threshold : ℚ) (data : List DataPoint) : List Bool :=
  let speeds := data.map DataPoint.speed
  let mad := medianAbsoluteDeviation speeds
  let med := median speeds
  if mad = 0 then List.replicate data.length false
  else speeds.map fun speed => decide (threshold < |6745/10000 * (speed - med) / mad|)

/-- `removeOutliers(data)`: keep the points whose flag is `false`. -/
def removeOutliers (threshold : ℚ) (data : List DataPoint) : List DataPoint :=
  (data.zip (detectOutliers threshold data)).filterMap
    fun pb => if pb.2 then none else some pb.1

end OutlierDetector

namespace SavitzkyGolayFilter

/-- `coefficients[0]` = `coefficients[2]`: kernel used for the first and last
two points. -/
def coeffEdge : List ℚ := [-3, 12, 17, 12, -3]

/-- `coefficients[1]`: kernel used for interior points (the code divides the
window sum by the hard-coded `coeffSum = 35`, though these coefficients sum
to 85). -/
def coeffNormal : List ℚ := [5, 20, 35, 20, 5]

def pointAt (data : List DataPoint) (j : ℕ) : DataPoint := data.getD j ⟨0, 0⟩

/-- Weighted window sum `Σ_{j<5} coeffs[j] * data[start+j].speed`. -/
def windowSum (coeffs : List ℚ) (data : List DataPoint) (start : ℕ) : ℚ :=
  (List.range 5).foldl (fun acc j => acc + coeffs.getD j 0 * (pointAt data (start + j)).speed) 0

/-- `filter(data)`: input shorter than 5 points is returned unchanged;
otherwise each output speed is a 5-point window sum divided by 35
(`coeffSum` is the sum of the edge kernel for the first/last two points and
the hard-coded constant 35 for interior points); times are preserved. -/
def filter (data : List DataPoint) : List DataPoint :=
  if data.length < 5 then data
  else
    (List.range data.length).map fun i =>
      if i < 2 then ⟨(pointAt data i).time, windowSum coeffEdge data 0 / 35⟩
      else if data.length - 2 ≤ i then
        ⟨(pointAt data i).time, windowSum coeffEdge data (data.length - 5) / 35⟩
      else ⟨(pointAt data i).time, windowSum coeffNormal data (i - 2) / 35⟩

end SavitzkyGolayFilter

namespace MultiPassInterpolator

open OutlierDetector SavitzkyGolayFilter

/-- Method 1 of `findTimeForSpeed`: linear interpolation on each adjacent pair
bracketing the target, skipping near-constant segments (`|Δspeed| < 0.1`). -/
def linearResults (smoothedData : List DataPoint) (targetSpeed : ℚ) : List ℚ :=
  (List.range (smoothedData.length - 1)).filterMap fun i =>
    let current := pointAt smoothedData i
    let next := pointAt smoothedData (i + 1)
    if (current.speed ≤ targetSpeed ∧ targetSpeed ≤ next.speed) ∨
        (targetSpeed ≤ current.speed ∧ next.speed ≤ targetSpeed) then
      if |next.speed - current.speed| < 1/10 then none
      else
        some (current.time +
          (targetSpeed - current.speed) / (next.speed - current.speed) *
            (next.time - current.time))
    else none

def mGet (A : List (List ℚ)) (i j : ℕ) : ℚ := (A.getD i []).getD j 0

def vGet (B : List ℚ) (i : ℕ) : ℚ := B.getD i 0

def mSet (A : List (List ℚ)) (k j : ℕ) (v : ℚ) : List (List ℚ) :=
  A.set k ((A.getD k []).set j v)

/-- Pivot search of the Gaussian elimination: the row `k > i` maximising
`|A[k][i]|`, starting from `maxRow = i`, replacing on strict increase. -/
def pivotRow (A : List (List ℚ)) (i : ℕ) : ℕ :=
  (List.range' (i + 1) (A.length - (i + 1))).foldl
    (fun maxRow k => if |mGet A maxRow i| < |mGet A k i| then k else maxRow) i

/-- Row swap of rows `i` and `k` (of both `A` and `B`). -/
def swapRows (A : List (List ℚ)) (i k : ℕ) : List (List ℚ) :=
  (A.set i (A.getD k [])).set k (A.getD i [])

def vSwap (B : List ℚ) (i k : ℕ) : List ℚ :=
  (B.set i (vGet B k)).set k (vGet B i)

/-- Body of the elimination loop over `k`: the singularity check
`|A[i][i]| < 1e-10` aborts with `null`; otherwise row `k` is reduced. -/
def elimInner (i n : ℕ) (st : List (List ℚ) × List ℚ) (k : ℕ) :
    Option (List (List ℚ) × List ℚ) :=
  if |mGet st.1 i i| < 1/10000000000 then none
  else
    let factor := mGet st.1 k i / mGet st.1 i i
    let B := (st.2).set k (vGet st.2 k - factor * vGet st.2 i)
    let A := (List.range' i (n - i)).foldl
      (fun A j => mSet A k j (mGet A k j - factor * mGet A i j)) st.1
    some (A, B)

/-- One column of the forward elimination: pivot, swap, reduce the rows below. -/
def elimStep (n : ℕ) (st : List (List ℚ) × List ℚ) (i : ℕ) :
    Option (List (List ℚ) × List ℚ) :=
  let maxRow := pivotRow st.1 i
  let A := swapRows st.1 i maxRow
  let B := vSwap st.2 i maxRow
  (List.range' (i + 1) (n - (i + 1))).foldlM (elimInner i n) (A, B)

/-- Back substitution, with the same `|A[i][i]| < 1e-10` singularity guard. -/
def backSub (n : ℕ) (A : List (List ℚ)) (B : List ℚ) : Option (List ℚ) :=
  (List.range n).reverse.foldlM
    (fun solution i =>
      let s := vGet B i -
        (List.range' (i + 1) (n - (i + 1))).foldl
          (fun acc j => acc + mGet A i j * vGet solution j) 0
      if |mGet A i i| < 1/10000000000 then none
      else some (solution.set i (s / mGet A i i)))
    (List.replicate n 0)

/-- `solveLinearSystem(A, B)`: Gaussian elimination with partial pivoting,
`null` on a (near-)singular matrix. -/
def solveLinearSystem (A : List (List ℚ)) (B : List ℚ) : Option (List ℚ) :=
  match (List.range A.length).foldlM (elimStep A.length) (A, B) with
  | none => none
  | some (A', B') => backSub A.length A' B'

/-- Subset selection of `polynomialInterpolation`: from the first point with
speed `≥ 0.8·target` minus two, to the last point with speed `≤ 1.2·target`
plus two. -/
def subsetOf (data : List DataPoint) (targetSpeed : ℚ) : List DataPoint :=
  let startIdx :=
    match data.findIdx? (fun p => targetSpeed * (8/10) ≤ p.speed) with
    | some i => i - 2
    | none => 0
  let endIdx :=
    match (List.range data.length).reverse.find?
        (fun i => (pointAt data i).speed ≤ targetSpeed * (12/10)) with
    | some i => min (data.length - 1) (i + 2)
    | none => data.length - 1
  (data.take (endIdx + 1)).drop startIdx

/-- Method 2 of `findTimeForSpeed` (`polynomialInterpolation`): least-squares
quadratic fit `speed = a·t² + b·t + c` on the bracketing subset via
`solveLinearSystem`, solved for `t` at the target; only a root inside the
subset's time range is accepted.  `Math.sqrt` is abstracted as `sqrtFn`; when
the fitted `a` is `0` the JS division yields `±Infinity`/`NaN`, which always
fails the range check, so that case is rendered directly as `none`. -/
def polynomialInterpolation (sqrtFn : ℚ → ℚ) (data : List DataPoint)
    (targetSpeed : ℚ) : Option ℚ :=
  if data.length < 3 then none
  else
    let subset := subsetOf data targetSpeed
    if subset.length < 3 then none
    else
      let sumT := subset.foldl (fun acc p => acc + p.time) 0
      let sumT2 := subset.foldl (fun acc p => acc + p.time * p.time) 0
      let sumT3 := subset.foldl (fun acc p => acc + p.time * p.time * p.time) 0
      let sumT4 := subset.foldl
        (fun acc p => acc + p.time * p.time * p.time * p.time) 0
      let sumS := subset.foldl (fun acc p => acc + p.speed) 0
      let sumST := subset.foldl (fun acc p => acc + p.speed * p.time) 0
      let sumST2 := subset.foldl
        (fun acc p => acc + p.speed * p.time * p.time) 0
      let A := [[(subset.length : ℚ), sumT, sumT2],
                [sumT, sumT2, sumT3],
                [sumT2, sumT3, sumT4]]
      let B := [sumS, sumST, sumST2]
      match solveLinearSystem A B with
      | none => none
      | some coeffs =>
        let c := vGet coeffs 0
        let b := vGet coeffs 1
        let a := vGet coeffs 2
        let discriminant := b * b - 4 * a * (c - targetSpeed)
        if discriminant < 0 then none
        else if a = 0 then none
        else
          let t1 := (-b + sqrtFn discriminant) / (2 * a)
          let t2 := (-b - sqrtFn discriminant) / (2 * a)
          let minTime := (pointAt subset 0).time
          let maxTime := (pointAt subset (subset.length - 1)).time
          if minTime ≤ t1 ∧ t1 ≤ maxTime then some t1
          else if minTime ≤ t2 ∧ t2 ≤ maxTime then some t2
          else none

/-- The combined list of accepted roots of both methods, after the outlier and
smoothing passes (empty when a length guard fails). -/
def acceptedRoots (sqrtFn : ℚ → ℚ) (data : List DataPoint)
    (targetSpeed : ℚ) : List ℚ :=
  if data.length < 2 then []
  else
    let cleanedData := OutlierDetector.removeOutliers 3 data
    if cleanedData.length < 2 then []
    else
      let smoothedData := SavitzkyGolayFilter.filter cleanedData
      linearResults smoothedData targetSpeed ++
        (if 4 ≤ smoothedData.length then
          match polynomialInterpolation sqrtFn smoothedData targetSpeed with
          | some r => [r]
          | none => []
        else [])

/-- Median-combination rule at the end of `findTimeForSpeed`: sort ascending,
mean of the two middle elements for even length, middle element otherwise. -/
def medianOfResults (results : List ℚ) : ℚ :=
  let sorted := results.insertionSort (· ≤ ·)
  if results.length % 2 = 0 then
    (sorted.getD (results.length / 2 - 1) 0 + sorted.getD (results.length / 2) 0) / 2
  else sorted.getD (results.length / 2) 0

/-- `findTimeForSpeed(data, targetSpeed)`: `null` for fewer than 2 points or
when outlier removal leaves fewer than 2; otherwise outlier removal
(threshold 3.0), Savitzky-Golay smoothing, both interpolation methods, and
the median of all accepted roots (`null` when there are none). -/
def findTimeForSpeed (sqrtFn : ℚ → ℚ) (data : List DataPoint)
    (targetSpeed : ℚ) : Option ℚ :=
  if data.length < 2 then none
  else
    let cleanedData := OutlierDetector.removeOutliers 3 data
    if cleanedData.length < 2 then none
    else
      let smoothedData := SavitzkyGolayFilter.filter cleanedData
      let results := linearResults smoothedData targetSpeed ++
        (if 4 ≤ smoothedData.length then
          match polynomialInterpolation sqrtFn smoothedData targetSpeed with
          | some r => [r]
          | none => []
        else [])
      if results = [] then none
      else some (medianOfResults results)

/-- The synthetic noiseless linear trace `speed(t) = 10·t` (km/h), sampled at
1 Hz for 7 samples; its samples bracket the target speed 30, whose true
crossing time is `30 / 10 = 3`. -/
def rampTrace : List DataPoint :=
  [⟨0, 0⟩, ⟨1, 10⟩, ⟨2, 20⟩, ⟨3, 30⟩, ⟨4, 40⟩, ⟨5, 50⟩, ⟨6, 60⟩]

/-- Value of the Savitzky-Golay pass on the ramp: the first/last two points
are replaced by the value two slots in, and each interior point is scaled by
`85/35 = 17/7` (the interior kernel sums to 85 but is divided by 35). -/
def rampSmoothed : List DataPoint :=
  [⟨0, 20⟩, ⟨1, 20⟩, ⟨2, 340/7⟩, ⟨3, 510/7⟩, ⟨4, 680/7⟩, ⟨5, 40⟩, ⟨6, 40⟩]

end MultiPassInterpolator

/-! ## LaunchDetector (src/utils/LaunchDetector.ts, file src/unnamed/part_012)

`Date.now()` is modelled as a per-call timestamp carried by the sample (the
two reads inside one synchronous `processData` call are identified).  The
stateful global Butterworth filter (`IMUFilters.filterAcceleration`) is
external to the class, so the filtered triple is an input of each call; when
`enableFiltering` is false the raw triple is used, as in the source. -/

structure Accel where
  x : ℚ
  y : ℚ
  z : ℚ
deriving DecidableEq, Repr

namespace LaunchDetector

/-- `LaunchDetectionConfig`. -/
structure Config where
  horizontalAccelThreshold : ℚ
  verticalAccelLimit : ℚ
  speedThreshold : ℚ
  sustainedDurationMs : ℚ
  samplingRateHz : ℚ
  enableFiltering : Bool
deriving DecidableEq, Repr

/-- The constructor defaults: threshold 2.0 m/s², vertical limit 3.0 m/s²,
speed threshold 3.0 km/h, 250 ms sustained, 60 Hz, filtering on. -/
def defaultConfig : Config :=
  { horizontalAccelThreshold := 2
    verticalAccelLimit := 3
    speedThreshold := 3
    sustainedDurationMs := 250
    samplingRateHz := 60
    enableFiltering := true }

/-- The mutable fields of the class (`lastProcessedTime` starts at 0 and is
not cleared by `reset()`). -/
structure State where
  accelerationHistory : List Accel
  filteredHistory : List Accel
  lastProcessedTime : ℚ
  isLaunchDetected : Bool
  launchStartTime : Option ℚ
deriving DecidableEq, Repr

def initState : State :=
  { accelerationHistory := []
    filteredHistory := []
    lastProcessedTime := 0
    isLaunchDetected := false
    launchStartTime := none }

/-- `reset()`: back to not-detected, no candidate, empty histories;
`lastProcessedTime` is left as is. -/
def reset (st : State) : State :=
  { st with
    isLaunchDetected := false
    launchStartTime := none
    accelerationHistory := []
    filteredHistory := [] }

/-- One `processData` call's inputs: the ambient `Date.now()`, the raw
triple, the Butterworth-filtered triple produced by the external
`IMUFilters` for this sample, and the current speed. -/
structure Sample where
  now : ℚ
  accel : Accel
  filtered : Accel
  speedKmh : ℚ
deriving DecidableEq, Repr

/-- The triple `checkLaunchConditions` sees: the filtered one when filtering
is enabled, the raw one otherwise. -/
def processedAccel (cfg : Config) (sample : Sample) : Accel :=
  if cfg.enableFiltering then sample.filtered else sample.accel

/-- `checkLaunchConditions(acceleration, currentSpeedKmh)`: the comparison
`sqrt(x²+y²) > horizontalAccelThreshold` is rendered as the equivalent
comparison of squares (the configured thresholds are non-negative). -/
def checkLaunchConditions (cfg : Config) (now : ℚ) (a : Accel)
    (currentSpeedKmh : ℚ) (st : State) : Bool × State :=
  if cfg.horizontalAccelThreshold ^ 2 < a.x * a.x + a.y * a.y ∧
      |a.z| < cfg.verticalAccelLimit ∧
      currentSpeedKmh < cfg.speedThreshold then
    match st.launchStartTime with
    | none => (st.isLaunchDetected, { st with launchStartTime := some now })
    | some t0 =>
      if cfg.sustainedDurationMs ≤ now - t0 ∧ st.isLaunchDetected = false then
        (true, { st with isLaunchDetected := true })
      else (st.isLaunchDetected, st)
  else
    (st.isLaunchDetected, { st with launchStartTime := none })

/-- History bookkeeping of `processData`: push the raw sample (and, with
filtering enabled, the filtered one), then `shift()` the buffers beyond
`samplingRateHz * 2` entries. -/
def pushHistory (cfg : Config) (sample : Sample) (st : State) : State :=
  let processed := processedAccel cfg sample
  let st := { st with
    accelerationHistory := st.accelerationHistory ++ [sample.accel] }
  let st :=
    if cfg.enableFiltering then
      { st with filteredHistory := st.filteredHistory ++ [processed] }
    else st
  let maxHistoryLength := cfg.samplingRateHz * 2
  if maxHistoryLength < (st.accelerationHistory.length : ℚ) then
    { st with
      accelerationHistory := st.accelerationHistory.tail
      filteredHistory :=
        if cfg.enableFiltering ∧
            maxHistoryLength < (st.filteredHistory.length : ℚ) then
          st.filteredHistory.tail
        else st.filteredHistory }
  else st

/-- `processData(acceleration, currentSpeedKmh)`: rate limiting (returns the
current `isLaunchDetected` for samples arriving faster than
`1000/samplingRateHz` ms apart), reset when already moving, history
bookkeeping, then the condition check. -/
def processData (cfg : Config) (sample : Sample) (st : State) : Bool × State :=
  let minIntervalMs := 1000 / cfg.samplingRateHz
  if sample.now - st.lastProcessedTime < minIntervalMs then
    (st.isLaunchDetected, st)
  else
    let st := { st with lastProcessedTime := sample.now }
    if cfg.speedThreshold < sample.speedKmh then (false, reset st)
    else
      checkLaunchConditions cfg sample.now (processedAccel cfg sample)
        sample.speedKmh (pushHistory cfg sample st)

/-- Feed a stream of samples, collecting each call's boolean result. -/
def runAux (cfg : Config) (st : State) : List Sample → List Bool × State
  | [] => ([], st)
  | sample :: rest =>
    let r := processData cfg sample st
    let rec' := runAux cfg r.2 rest
    (r.1 :: rec'.1, rec'.2)

def runOutputs (cfg : Config) (samples : List Sample) : List Bool :=
  (runAux cfg initState samples).1

def runState (cfg : Config) (samples : List Sample) : State :=
  (runAux cfg initState samples).2

/-- A sample whose processed triple violates the launch conditions: the
horizontal magnitude is at or below the threshold (compared as squares), or
the vertical magnitude is at or above the limit. -/
def suppressedSample (cfg : Config) (sample : Sample) : Prop :=
  let a := processedAccel cfg sample
  a.x * a.x + a.y * a.y ≤ cfg.horizontalAccelThreshold ^ 2 ∨
  cfg.verticalAccelLimit ≤ |a.z|

end LaunchDetector

/-! ## TimingResults milestone bookkeeping (src/src/components/SpeedSnap.tsx)

The live milestone effects and `stopMeasurement` guard every write with the
JavaScript truthiness test `!prev[key]`, which treats both `null` and a
recorded time of `0` as unset. -/

inductive MilestoneLabel where
  | s20 | s30 | s40 | s60 | s80 | s100 | s120 | s130 | s200 | s250
  | quarterMile | halfMile
deriving DecidableEq, Repr

/-- `TimingResults`: milestone label to recorded time (seconds) or `null`. -/
abbrev TimingResults := MilestoneLabel → Option ℚ

/-- JS truthiness of a `number | null` entry: `null` and `0` are falsy. -/
def jsFalsy : Option ℚ → Bool
  | none => true
  | some t => decide (t = 0)

/-- The live speed-milestone effect: for each `(target, key)` of the
configured targets, `if (speed >= target && !prev[key]) newTimes[key] =
elapsed` (the guard reads `prev`, the writes accumulate). -/
def checkSpeedMilestones (targets : List (ℚ × MilestoneLabel))
    (speed elapsed : ℚ) (prev : TimingResults) : TimingResults :=
  targets.foldl
    (fun newTimes target =>
      if target.1 ≤ speed ∧ jsFalsy (prev target.2) then
        Function.update newTimes target.2 (some elapsed)
      else newTimes)
    prev

/-- The live distance-milestone effect: quarter mile at `402.336` m, half
mile at `804.672` m, each guarded by `!prev[key]`. -/
def checkDistanceMilestones (distance elapsed : ℚ)
    (prev : TimingResults) : TimingResults :=
  let afterQuarter :=
    if 402336/1000 ≤ distance ∧ jsFalsy (prev MilestoneLabel.quarterMile) then
      Function.update prev MilestoneLabel.quarterMile (some elapsed)
    else prev
  if 804672/1000 ≤ distance ∧ jsFalsy (prev MilestoneLabel.halfMile) then
    Function.update afterQuarter MilestoneLabel.halfMile (some elapsed)
  else afterQuarter

/-- The five labels `stopMeasurement` refines by interpolation. -/
def stopTargets : List (ℚ × MilestoneLabel) :=
  [(30, MilestoneLabel.s30), (60, MilestoneLabel.s60), (100, MilestoneLabel.s100),
   (200, MilestoneLabel.s200), (250, MilestoneLabel.s250)]

/-- The post-run interpolation of `stopMeasurement`: with at least 4 stored
points, each still-unset (`!prev[key]`) label whose target some stored point
reached gets `findTimeForSpeed`'s answer when it is not `null`. -/
def stopInterpolation (sqrtFn : ℚ → ℚ) (dataPoints : List DataPoint)
    (prev : TimingResults) : TimingResults :=
  if 4 ≤ dataPoints.length then
    stopTargets.foldl
      (fun newTimes target =>
        if jsFalsy (prev target.2) ∧ dataPoints.any (fun p => target.1 ≤ p.speed) then
          match MultiPassInterpolator.findTimeForSpeed sqrtFn dataPoints target.1 with
          | some t => Function.update newTimes target.2 (some t)
          | none => newTimes
        else newTimes)
      prev
  else prev

/-! ## Position-to-speed pipeline (src/src/hooks/useGPSTracking.ts) and the
simplified fusion step (src/src/hooks/useEnhancedSensorFusion.ts) -/

namespace GPSTracking

/-- The speed-source reconciliation of `handlePosition` (lines 152-194):
`calculated` is the position-derived estimate when the `0.05 ≤ dt ≤ 2` time
window accepted it (`speedMs` stays `0` otherwise), `reported` is
`position.coords.speed` (`none` renders JS `null`).  A valid non-negative
reported speed replaces `speedMs` only when `speedMs` is `0`; otherwise it is
used for validation: on more than 25% relative difference at average speed
above 2.78 m/s, the smaller of the two wins. -/
def selectSpeedMs (calculated reported : Option ℚ) : ℚ :=
  let speedMs := calculated.getD 0
  match reported with
  | some gpsSpeed =>
    if 0 ≤ gpsSpeed then
      if speedMs = 0 then gpsSpeed
      else
        let speedDiff := |speedMs - gpsSpeed|
        let avgSpeed := (speedMs + gpsSpeed) / 2
        let diffPercent := if 0 < avgSpeed then speedDiff / avgSpeed * 100 else 0
        if 25 < diffPercent ∧ 278/100 < avgSpeed then min speedMs gpsSpeed
        else speedMs
    else speedMs
  | none => speedMs

/-- Relative difference (percent of the average) between the two estimates. -/
def diffPercentOf (c g : ℚ) : ℚ := |c - g| / ((c + g) / 2) * 100

/-- `useSensorFusion.updateKalmanFilter(speedKmh, accelMagnitude, dt)`:
`ekf.predict(dt)` then `ekf.update([speedKmh, accelMagnitude])`, returning
the filtered speed; `new ExtendedKalmanFilter()` there constructs the first
version of the class. -/
def updateKalmanFilter (speedKmh accelMagnitude dt : ℚ) (ekf : EKFState) :
    ℚ × EKFState :=
  let predicted := EKF1.predict dt ekf
  let updated := EKF1.update speedKmh accelMagnitude predicted
  (updated.x0, updated)

/-- The measurement `handlePosition` feeds to the Kalman update (lines
202-240): the raw `speedKmh` unless the outlier detector (threshold 2.5, on
the last 15 stored points plus the new sample) flags the new sample, in
which case the Savitzky-Golay-filtered value of the last 7 points stands in
(`displaySpeed`). -/
def kalmanInput (speedMs elapsed : ℚ) (recentPrev : List DataPoint) : ℚ :=
  let speedKmh := speedMs * (36/10)
  let recentPoints := recentPrev ++ [⟨elapsed, speedKmh⟩]
  let outliers := OutlierDetector.detectOutliers (5/2) recentPoints
  let isCurrentOutlier := outliers.getD (outliers.length - 1) false
  let displaySpeed :=
    if isCurrentOutlier ∧ 5 ≤ recentPoints.length then
      let filteredPoints :=
        SavitzkyGolayFilter.filter (recentPoints.drop (recentPoints.length - 7))
      if filteredPoints ≠ [] then
        (SavitzkyGolayFilter.pointAt filteredPoints (filteredPoints.length - 1)).speed
      else speedKmh
    else speedKmh
  if isCurrentOutlier then displaySpeed else speedKmh

/-- What the tail of `handlePosition` delivers: the speed passed to
`onSpeedUpdate`, the `DataPoint` appended to the run trace during a run, and
the filter state after the fusion call. -/
structure TailResult where
  finalSpeed : ℚ
  dataPoint : DataPoint
  ekf : EKFState
deriving Repr

/-- The speed-processing tail of `handlePosition` (lines 202-263): Kalman
fusion of the selected measurement, then `finalSpeed = Math.max(0,
fusedSpeed)`; `onSpeedUpdate` receives `finalSpeed` and the appended trace
point is `{ time: elapsed, speed: finalSpeed }`.  `accelMagnitude` stands
for `Math.sqrt(x² + y² + z²)` of the current accelerometer triple. -/
def handlePositionTail (speedMs elapsed : ℚ) (recentPrev : List DataPoint)
    (accelMagnitude dt : ℚ) (ekf : EKFState) : TailResult :=
  let fused := updateKalmanFilter (kalmanInput speedMs elapsed recentPrev)
    accelMagnitude dt ekf
  let finalSpeed := max 0 fused.1
  { finalSpeed := finalSpeed
    dataPoint := ⟨elapsed, finalSpeed⟩
    ekf := fused.2 }

/-- The mutable fusion refs of `useEnhancedSensorFusion`: the integrated IMU
velocity (m/s) and the fixed blend gain 0.3. -/
structure FusionState where
  imuVelocity : ℚ
  kalmanGain : ℚ
deriving DecidableEq, Repr

def initFusion : FusionState := ⟨0, 3/10⟩

/-- `fuseData(gpsSpeedMs, imuAccelMs2, deltaTime)`: integrate the IMU
acceleration into the velocity estimate, blend with the GPS speed by the
gain, write the blended value back (drift correction), and return
`Math.max(0, newFusedSpeed * 3.6)` km/h. -/
def fuseData (st : FusionState) (gpsSpeedMs imuAccelMs2 deltaTime : ℚ) :
    ℚ × FusionState :=
  let v := st.imuVelocity + imuAccelMs2 * deltaTime
  let newFusedSpeed := v + st.kalmanGain * (gpsSpeedMs - v)
  (max 0 (newFusedSpeed * (36/10)), { st with imuVelocity := newFusedSpeed })

end GPSTracking

/-- Covariance shrinking step of `update` keeps a non-negative diagonal entry
non-negative, for positive measurement noise. -/
theorem ekf_cov_update_nonneg (p r : ℚ) (hp : 0 ≤ p) (hr : 0 < r) :
    0 ≤ p * (1 - p / (p + r)) := by
  have hpr : 0 < p + r := by linarith
  have h1 : 1 - p / (p + r) = r / (p + r) := by field_simp
  rw [h1]
  positivity

theorem ekf1_step_cov_nonneg (s : EKFState) (op : EKFOp) (hop : op.dtOk = true)
    (h0 : 0 ≤ s.p00) (h1 : 0 ≤ s.p11) :
    0 ≤ (EKF1.step s op).p00 ∧ 0 ≤ (EKF1.step s op).p11 := by
  cases op with
  | predict dt =>
      simp only [EKF1.step, EKF1.predict, EKF1.q00, EKF1.q11]
      constructor <;> linarith
  | update m0 m1 =>
      simp only [EKF1.step, EKF1.update, ekfUpdate]
      exact ⟨ekf_cov_update_nonneg _ _ h0 (by norm_num [EKF1.r00]),
             ekf_cov_update_nonneg _ _ h1 (by norm_num [EKF1.r11])⟩

theorem ekf2_step_cov_nonneg (s : EKFState) (op : EKFOp) (hop : op.dtOk = true)
    (h0 : 0 ≤ s.p00) (h1 : 0 ≤ s.p11) :
    0 ≤ (EKF2.step s op).p00 ∧ 0 ≤ (EKF2.step s op).p11 := by
  cases op with
  | predict dt =>
      have hdt : 0 ≤ dt := by simpa [EKFOp.dtOk] using hop
      simp only [EKF2.step, EKF2.predict, EKF2.q00, EKF2.q11]
      constructor <;> nlinarith
  | update m0 m1 =>
      simp only [EKF2.step, EKF2.update, ekfUpdate]
      exact ⟨ekf_cov_update_nonneg _ _ h0 (by norm_num [EKF2.r00]),
             ekf_cov_update_nonneg _ _ h1 (by norm_num [EKF2.r11])⟩

theorem ekf1_foldl_cov_nonneg (ops : List EKFOp) :
    ∀ s : EKFState, (∀ op ∈ ops, op.dtOk = true) → 0 ≤ s.p00 → 0 ≤ s.p11 →
      0 ≤ (ops.foldl EKF1.step s).p00 ∧ 0 ≤ (ops.foldl EKF1.step s).p11 := by
  induction ops with
  | nil => intro s _ h0 h1; exact ⟨h0, h1⟩
  | cons op rest ih =>
      intro s hall h0 h1
      have hop := hall op (List.mem_cons_self op rest)
      have hstep := ekf1_step_cov_nonneg s op hop h0 h1
      exact ih (EKF1.step s op) (fun o ho => hall o (List.mem_cons_of_mem _ ho))
        hstep.1 hstep.2

theorem ekf2_foldl_cov_nonneg (ops : List EKFOp) :
    ∀ s : EKFState, (∀ op ∈ ops, op.dtOk = true) → 0 ≤ s.p00 → 0 ≤ s.p11 →
      0 ≤ (ops.foldl EKF2.step s).p00 ∧ 0 ≤ (ops.foldl EKF2.step s).p11 := by
  induction ops with
  | nil => intro s _ h0 h1; exact ⟨h0, h1⟩
  | cons op rest ih =>
      intro s hall h0 h1
      have hop := hall op (List.mem_cons_self op rest)
      have hstep := ekf2_step_cov_nonneg s op hop h0 h1
      exact ih (EKF2.step s op) (fun o ho => hall o (List.mem_cons_of_mem _ ho))
        hstep.1 hstep.2

/-- **C1, counterexample.** The claim states that `predict(dt)` leaves the
state vector unchanged and advances each covariance diagonal entry by its
process-noise rate scaled by `dt`.  The first version of the class in
`src/src/utils/ExtendedKalmanFilter.ts` violates both parts at the concrete
input `x = [0, 1]`, `P = diag(1, 1)`, `dt = 1` (resp. `dt = 2`): it adds
`x[1] * dt * 3.6 = 3.6` into the speed state, and it advances `P[0][0]` by
the constant `Q[0][0] = 0.005`, not by `Q[0][0] * dt = 0.01`. -/
theorem C1_predict_counterexample :
    (EKF1.predict 1 ⟨0, 1, 1, 1⟩).x0 = 36/10 ∧ (36/10 : ℚ) ≠ 0 ∧
    (EKF1.predict 2 EKF1.init).p00 = 1 + 5/1000 ∧
    (1 + 5/1000 : ℚ) ≠ 1 + 5/1000 * 2 := by
  refine ⟨?_, by norm_num, ?_, by norm_num⟩ <;>
    norm_num [EKF1.predict, EKF1.init, EKF1.q00]

/-- **C1 (amended).** For the conservative (second) version of
`ExtendedKalmanFilter` in the source file, `predict(dt)` leaves the state
vector `(speed, acceleration)` unchanged and advances each covariance
diagonal entry by exactly its process-noise rate scaled by `dt`
(`P00 += 0.001·dt`, `P11 += 0.005·dt`); the other version in the same file
instead extrapolates the speed state and adds its process noise unscaled. -/
theorem C1_predict_conservative (dt : ℚ) (s : EKFState) :
    (EKF2.predict dt s).x0 = s.x0 ∧ (EKF2.predict dt s).x1 = s.x1 ∧
    (EKF2.predict dt s).p00 = s.p00 + 1/1000 * dt ∧
    (EKF2.predict dt s).p11 = s.p11 + 5/1000 * dt := by
  refine ⟨rfl, rfl, ?_, ?_⟩ <;> simp [EKF2.predict, EKF2.q00, EKF2.q11]

/-- **C5.** Starting from reset (`P = diag(1,1)`), every sequence of
`predict(dt)` calls with `dt ≥ 0` and `update(measurement)` calls keeps both
diagonal covariance entries non-negative — for both versions of the class in
the source file. -/
theorem C5_covariance_nonneg (ops : List EKFOp)
    (h : ∀ op ∈ ops, op.dtOk = true) :
    (0 ≤ (EKF1.run ops).p00 ∧ 0 ≤ (EKF1.run ops).p11) ∧
    (0 ≤ (EKF2.run ops).p00 ∧ 0 ≤ (EKF2.run ops).p11) :=
  ⟨ekf1_foldl_cov_nonneg ops EKF1.init h (by norm_num [EKF1.init])
     (by norm_num [EKF1.init]),
   ekf2_foldl_cov_nonneg ops EKF2.init h (by norm_num [EKF2.init])
     (by norm_num [EKF2.init])⟩

/-- Witness for C5 at the concrete call sequence
`[predict 1, update 5 1, predict (1/2), update 20 2]`. -/
theorem C5_covariance_nonneg_witness :
    (0 ≤ (EKF1.run [.predict 1, .update 5 1, .predict (1/2), .update 20 2]).p00 ∧
     0 ≤ (EKF1.run [.predict 1, .update 5 1, .predict (1/2), .update 20 2]).p11) ∧
    (0 ≤ (EKF2.run [.predict 1, .update 5 1, .predict (1/2), .update 20 2]).p00 ∧
     0 ≤ (EKF2.run [.predict 1, .update 5 1, .predict (1/2), .update 20 2]).p11) :=
  C5_covariance_nonneg _ (by
    intro op hop
    fin_cases hop <;> norm_num [EKFOp.dtOk])

namespace MultiPassInterpolator

open OutlierDetector SavitzkyGolayFilter

/-- `findTimeForSpeed` is the median of the accepted roots, and `none`
exactly when there is no accepted root. -/
theorem findTimeForSpeed_eq_median (sqrtFn : ℚ → ℚ) (data : List DataPoint)
    (targetSpeed : ℚ) :
    findTimeForSpeed sqrtFn data targetSpeed =
      if acceptedRoots sqrtFn data targetSpeed = [] then none
      else some (medianOfResults (acceptedRoots sqrtFn data targetSpeed)) := by
  by_cases h1 : data.length < 2
  · simp [findTimeForSpeed, acceptedRoots, h1]
  · by_cases h2 : (OutlierDetector.removeOutliers 3 data).length < 2
    · simp [findTimeForSpeed, acceptedRoots, h1, h2]
    · simp only [findTimeForSpeed, acceptedRoots, if_neg h1, if_neg h2]

/-- If `polynomialInterpolation` accepts a root, that root lies inside the
time range of the bracketing subset (this holds for every value of the
abstracted square root, because the acceptance test itself checks the
range). -/
theorem polynomialInterpolation_mem_timeRange (sqrtFn : ℚ → ℚ)
    (data : List DataPoint) (targetSpeed r : ℚ)
    (h : polynomialInterpolation sqrtFn data targetSpeed = some r) :
    (pointAt (subsetOf data targetSpeed) 0).time ≤ r ∧
    r ≤ (pointAt (subsetOf data targetSpeed) ((subsetOf data targetSpeed).length - 1)).time := by
  simp only [polynomialInterpolation] at h
  split_ifs at h
  split at h
  · exact absurd h (by simp)
  · split_ifs at h with hd ha ht1 ht2
    · obtain rfl : _ = r := Option.some.inj h
      exact ht1
    · obtain rfl : _ = r := Option.some.inj h
      exact ht2

theorem ramp_cleaned : OutlierDetector.removeOutliers 3 rampTrace = rampTrace := by
  norm_num [rampTrace, OutlierDetector.removeOutliers, OutlierDetector.detectOutliers,
    OutlierDetector.medianAbsoluteDeviation, OutlierDetector.median,
    List.insertionSort, List.orderedInsert, lt_abs, List.filterMap_cons]

theorem ramp_smoothed : SavitzkyGolayFilter.filter rampTrace = rampSmoothed := by
  norm_num [rampTrace, rampSmoothed, SavitzkyGolayFilter.filter,
    SavitzkyGolayFilter.windowSum, SavitzkyGolayFilter.coeffEdge,
    SavitzkyGolayFilter.coeffNormal, SavitzkyGolayFilter.pointAt, List.range_succ]

theorem ramp_linear : linearResults rampSmoothed 30 = [27/20] := by
  norm_num [rampSmoothed, linearResults, pointAt, List.range_succ, abs_lt, not_le,
    not_lt, List.filterMap_cons, List.filterMap_append]

theorem ramp_subset : subsetOf rampSmoothed 30 =
    [⟨0, 20⟩, ⟨1, 20⟩, ⟨2, 340/7⟩, ⟨3, 510/7⟩] := by
  norm_num [rampSmoothed, subsetOf, pointAt, List.findIdx?, List.range_succ]

theorem medianOfResults_single (a : ℚ) : medianOfResults [a] = a := by
  simp [medianOfResults, List.insertionSort, List.orderedInsert]

theorem medianOfResults_pair (a b : ℚ) : medianOfResults [a, b] = (a + b) / 2 := by
  rcases le_or_lt a b with hab | hab
  · simp [medianOfResults, List.insertionSort, List.orderedInsert, hab]
  · simp [medianOfResults, List.insertionSort, List.orderedInsert, not_le.mpr hab]
    ring

end MultiPassInterpolator

/-- **C7.** `findTimeForSpeed` returns the median of all accepted roots of
the linear and quadratic methods, and returns `none` (it is a total
function, so it never throws) exactly when there is no accepted root — which
covers the enumerated cases: fewer than 2 input points, fewer than 2 points
after outlier removal, a (near-)singular fitted system (`solveLinearSystem`
returns `none`), and no quadratic root inside the subset's time range (all
of which leave the accepted-root list empty when the linear method also
yields nothing).  Stated for every value of the abstracted square root. -/
theorem C7_findTimeForSpeed_median_or_null (sqrtFn : ℚ → ℚ)
    (data : List DataPoint) (targetSpeed : ℚ) :
    MultiPassInterpolator.findTimeForSpeed sqrtFn data targetSpeed =
      if MultiPassInterpolator.acceptedRoots sqrtFn data targetSpeed = [] then none
      else some (MultiPassInterpolator.medianOfResults
        (MultiPassInterpolator.acceptedRoots sqrtFn data targetSpeed)) :=
  MultiPassInterpolator.findTimeForSpeed_eq_median sqrtFn data targetSpeed

/-- **C6.** The interpolator round-trip FAILS on the code: on the noiseless
linear trace `speed(t) = 10·t` sampled at 1 Hz (7 samples, target 30 km/h,
true crossing time 3 s), `findTimeForSpeed` does return an answer, but that
answer is more than `1e-2` s away from 3 s — for every possible value of the
abstracted `Math.sqrt`.  The linear method contributes the root `27/20 =
1.35` (computed on the mis-scaled smoothed trace, whose interior kernel
`[5,20,35,20,5]` sums to 85 yet is divided by the hard-coded 35), and any
accepted quadratic root lies in the subset time range `[0, 3]`, so the
returned median lies in `[27/40, 87/40]`, never within `1/100` of 3. -/
theorem C6_round_trip_fails (sqrtFn : ℚ → ℚ) :
    ∃ r : ℚ, MultiPassInterpolator.findTimeForSpeed sqrtFn
        MultiPassInterpolator.rampTrace 30 = some r ∧ ¬|r - 3| ≤ 1/100 := by
  classical
  have hroots : MultiPassInterpolator.acceptedRoots sqrtFn
      MultiPassInterpolator.rampTrace 30 =
      27/20 :: (match MultiPassInterpolator.polynomialInterpolation sqrtFn
          MultiPassInterpolator.rampSmoothed 30 with
        | some rp => [rp]
        | none => []) := by
    simp only [MultiPassInterpolator.acceptedRoots, MultiPassInterpolator.ramp_cleaned,
      MultiPassInterpolator.ramp_smoothed, MultiPassInterpolator.ramp_linear]
    norm_num [MultiPassInterpolator.rampTrace, MultiPassInterpolator.rampSmoothed]
  rcases hp : MultiPassInterpolator.polynomialInterpolation sqrtFn
      MultiPassInterpolator.rampSmoothed 30 with _ | rp
  · refine ⟨27/20, ?_, by intro habs; rw [abs_le] at habs; have := habs.1; norm_num at this⟩
    rw [MultiPassInterpolator.findTimeForSpeed_eq_median, hroots, hp]
    simp [MultiPassInterpolator.medianOfResults_single]
  · have hrange := MultiPassInterpolator.polynomialInterpolation_mem_timeRange
      sqrtFn MultiPassInterpolator.rampSmoothed 30 rp hp
    rw [MultiPassInterpolator.ramp_subset] at hrange
    have h3 : rp ≤ 3 := by
      simpa [SavitzkyGolayFilter.pointAt] using hrange.2
    refine ⟨(27/20 + rp)/2, ?_, ?_⟩
    · rw [MultiPassInterpolator.findTimeForSpeed_eq_median, hroots, hp]
      simp [MultiPassInterpolator.medianOfResults_pair]
    · intro habs
      rw [abs_le] at habs
      have := habs.1
      linarith

namespace LaunchDetector

theorem pushHistory_isLaunchDetected (cfg : Config) (sample : Sample)
    (st : State) :
    (pushHistory cfg sample st).isLaunchDetected = st.isLaunchDetected := by
  simp only [pushHistory]
  split_ifs <;> rfl

theorem pushHistory_launchStartTime (cfg : Config) (sample : Sample)
    (st : State) :
    (pushHistory cfg sample st).launchStartTime = st.launchStartTime := by
  simp only [pushHistory]
  split_ifs <;> rfl

/-- The conditions gate of `checkLaunchConditions` is closed for a suppressed
sample, so both the returned flag and the state keep `isLaunchDetected`. -/
theorem checkLaunchConditions_suppressed (cfg : Config) (now : ℚ) (a : Accel)
    (speed : ℚ) (st : State)
    (hs : a.x * a.x + a.y * a.y ≤ cfg.horizontalAccelThreshold ^ 2 ∨
      cfg.verticalAccelLimit ≤ |a.z|) :
    checkLaunchConditions cfg now a speed st =
      (st.isLaunchDetected, { st with launchStartTime := none }) := by
  unfold checkLaunchConditions
  rcases hs with hs | hs
  · exact if_neg (by rintro ⟨h1, -, -⟩; exact absurd h1 (not_lt.mpr hs))
  · exact if_neg (by rintro ⟨-, h2, -⟩; exact absurd h2 (not_lt.mpr hs))

theorem processData_suppressed (cfg : Config) (sample : Sample) (st : State)
    (hdet : st.isLaunchDetected = false) (hs : suppressedSample cfg sample) :
    (processData cfg sample st).1 = false ∧
    (processData cfg sample st).2.isLaunchDetected = false := by
  unfold processData
  by_cases hrl : sample.now - st.lastProcessedTime < 1000 / cfg.samplingRateHz
  · rw [if_pos hrl]
    exact ⟨hdet, hdet⟩
  · rw [if_neg hrl]
    by_cases hsp : cfg.speedThreshold < sample.speedKmh
    · rw [if_pos hsp]
      exact ⟨rfl, rfl⟩
    · rw [if_neg hsp,
        checkLaunchConditions_suppressed cfg sample.now _ sample.speedKmh _ hs]
      constructor <;> simpa [pushHistory_isLaunchDetected] using hdet

theorem runAux_suppressed (cfg : Config) (samples : List Sample) :
    ∀ st : State, st.isLaunchDetected = false →
      (∀ sample ∈ samples, suppressedSample cfg sample) →
      (∀ b ∈ (runAux cfg st samples).1, b = false) ∧
      (runAux cfg st samples).2.isLaunchDetected = false := by
  induction samples with
  | nil => intro st hdet _; simpa [runAux] using hdet
  | cons sample rest ih =>
    intro st hdet hall
    have hstep := processData_suppressed cfg sample st hdet
      (hall sample (List.mem_cons_self sample rest))
    have hrest := ih (processData cfg sample st).2 hstep.2
      (fun s hs => hall s (List.mem_cons_of_mem _ hs))
    refine ⟨?_, by simpa [runAux] using hrest.2⟩
    intro b hb
    simp only [runAux] at hb
    rcases List.mem_cons.mp hb with rfl | hb
    · exact hstep.1
    · exact hrest.1 b hb

/-- **C9.** For every input stream whose processed (filtered) samples all
have horizontal magnitude at or below `horizontalAccelThreshold` or
vertical magnitude at or above `verticalAccelLimit`, `processData` never
returns true and the detector never reaches the confirmed state, regardless
of stream length. -/
theorem C9_launch_suppression (cfg : Config) (samples : List Sample)
    (h : ∀ sample ∈ samples, suppressedSample cfg sample) :
    (∀ b ∈ runOutputs cfg samples, b = false) ∧
    (runState cfg samples).isLaunchDetected = false :=
  runAux_suppressed cfg samples initState rfl h

/-- Witness for C9: two sub-threshold samples (horizontal magnitude 1 ≤ 2)
produce no detection. -/
theorem C9_launch_suppression_witness :
    (∀ b ∈ runOutputs defaultConfig
      [⟨1000, ⟨1, 0, 0⟩, ⟨1, 0, 0⟩, 0⟩, ⟨1300, ⟨1, 0, 0⟩, ⟨1, 0, 0⟩, 0⟩], b = false) ∧
    (runState defaultConfig
      [⟨1000, ⟨1, 0, 0⟩, ⟨1, 0, 0⟩, 0⟩, ⟨1300, ⟨1, 0, 0⟩, ⟨1, 0, 0⟩, 0⟩]).isLaunchDetected
      = false :=
  C9_launch_suppression defaultConfig _ (by
    intro sample hs
    fin_cases hs <;> norm_num [suppressedSample, processedAccel, defaultConfig])

/-- **C2, counterexample.** With the default configuration and the launch
conditions holding continuously (horizontal magnitude 3 > 2, vertical 0 < 3,
speed 0 < 3), the second call (at 1300 ms, 300 ms ≥ 250 ms sustained) is the
confirming call and returns true — and the third call, before any reset,
returns true AGAIN (the source returns the latched `isLaunchDetected`), so
`processData` does not return true exactly once. -/
theorem C2_returns_true_again :
    runOutputs defaultConfig
      [⟨1000, ⟨3, 0, 0⟩, ⟨3, 0, 0⟩, 0⟩,
       ⟨1300, ⟨3, 0, 0⟩, ⟨3, 0, 0⟩, 0⟩,
       ⟨1600, ⟨3, 0, 0⟩, ⟨3, 0, 0⟩, 0⟩] = [false, true, true] := by
  norm_num [runOutputs, runAux, processData, checkLaunchConditions, processedAccel,
    pushHistory, reset, initState, defaultConfig]

/-- With `isLaunchDetected` already latched, every branch of
`checkLaunchConditions` returns it and keeps it latched. -/
theorem checkLaunchConditions_latched (cfg : Config) (now : ℚ) (a : Accel)
    (speed : ℚ) (st : State) (hdet : st.isLaunchDetected = true) :
    (checkLaunchConditions cfg now a speed st).1 = true ∧
    (checkLaunchConditions cfg now a speed st).2.isLaunchDetected = true := by
  unfold checkLaunchConditions
  split_ifs with hc
  · rcases hls : st.launchStartTime with _ | t0 <;> simp [hls, hdet]
  · exact ⟨hdet, hdet⟩

/-- **C2 (amended).** Once confirmed, and until a reset (triggered by a call
with speed above `speedThreshold`, or by an external `reset()`),
`processData` keeps returning true: the CONFIRMED state latches, so the
confirming call is the first of an unbroken run of true results, not the
only one. -/
theorem C2_latched_until_reset (cfg : Config) (sample : Sample) (st : State)
    (hdet : st.isLaunchDetected = true)
    (hspeed : sample.speedKmh ≤ cfg.speedThreshold) :
    (processData cfg sample st).1 = true ∧
    (processData cfg sample st).2.isLaunchDetected = true := by
  unfold processData
  by_cases hrl : sample.now - st.lastProcessedTime < 1000 / cfg.samplingRateHz
  · rw [if_pos hrl]
    exact ⟨hdet, hdet⟩
  · rw [if_neg hrl, if_neg (not_lt.mpr hspeed)]
    exact checkLaunchConditions_latched cfg sample.now _ sample.speedKmh _
      (by simpa [pushHistory_isLaunchDetected] using hdet)

/-- Witness for the amended C2: a confirmed detector fed one more
below-threshold-speed sample still reports true. -/
theorem C2_latched_until_reset_witness :
    (processData defaultConfig ⟨1000, ⟨3, 0, 0⟩, ⟨3, 0, 0⟩, 0⟩
      { accelerationHistory := []
        filteredHistory := []
        lastProcessedTime := 0
        isLaunchDetected := true
        launchStartTime := none }).1 = true ∧
    (processData defaultConfig ⟨1000, ⟨3, 0, 0⟩, ⟨3, 0, 0⟩, 0⟩
      { accelerationHistory := []
        filteredHistory := []
        lastProcessedTime := 0
        isLaunchDetected := true
        launchStartTime := none }).2.isLaunchDetected = true :=
  C2_latched_until_reset defaultConfig _ _ rfl (by norm_num [defaultConfig])

end LaunchDetector

theorem foldl_entry_preserved {α : Type} (xs : List α)
    (write : TimingResults → α → TimingResults) (k : MilestoneLabel) (t : ℚ)
    (hw : ∀ acc x, acc k = some t → write acc x k = some t) :
    ∀ acc : TimingResults, acc k = some t → xs.foldl write acc k = some t := by
  induction xs with
  | nil => intro acc h; exact h
  | cons x rest ih => intro acc h; exact ih _ (hw acc x h)

/-- A write guarded by `jsFalsy (prev key)` cannot hit a label whose entry in
`prev` is a nonzero time. -/
theorem update_guarded_preserves (prev acc : TimingResults)
    (k key : MilestoneLabel) (t : ℚ) (hset : prev k = some t) (ht : t ≠ 0)
    (hkey : jsFalsy (prev key) = true) (v : Option ℚ)
    (hacc : acc k = some t) :
    Function.update acc key v k = some t := by
  rcases eq_or_ne k key with rfl | hne
  · rw [hset] at hkey
    simp [jsFalsy] at hkey
    exact absurd hkey ht
  · rw [Function.update_noteq hne]
    exact hacc

/-- **C4, counterexample.** A milestone recorded at elapsed time `0` is
treated as unset by the truthiness guard `!prev[key]` and is overwritten by
a later check: with targets `[(100, '0-100')]`, an entry `0-100 ↦ 0` becomes
`0-100 ↦ 1` when the speed still meets the target at elapsed time 1. -/
theorem C4_zero_entry_overwritten :
    checkSpeedMilestones [(100, MilestoneLabel.s100)] 100 1
        (Function.update (fun _ => none) MilestoneLabel.s100 (some 0))
        MilestoneLabel.s100 = some 1 ∧
      some (1 : ℚ) ≠ some (0 : ℚ) := by
  constructor
  · simp [checkSpeedMilestones, jsFalsy, Function.update]
  · simp

/-- **C4 (amended).** Once a TimingResults entry is set to a NONZERO time,
no later operation of the run changes it: neither the live speed or distance
milestone checks nor the post-run interpolation at stop overwrite it (an
entry written as exactly `0` is treated as unset by the JS truthiness guard
and can be overwritten — see the counterexample). -/
theorem C4_nonzero_write_once (targets : List (ℚ × MilestoneLabel))
    (speed elapsed distance : ℚ) (sqrtFn : ℚ → ℚ) (dataPoints : List DataPoint)
    (prev : TimingResults) (k : MilestoneLabel) (t : ℚ)
    (hset : prev k = some t) (ht : t ≠ 0) :
    checkSpeedMilestones targets speed elapsed prev k = some t ∧
    checkDistanceMilestones distance elapsed prev k = some t ∧
    stopInterpolation sqrtFn dataPoints prev k = some t := by
  refine ⟨?_, ?_, ?_⟩
  · unfold checkSpeedMilestones
    refine foldl_entry_preserved targets _ k t ?_ prev hset
    intro acc x hacc
    dsimp only
    split_ifs with hg
    · exact update_guarded_preserves prev acc k x.2 t hset ht hg.2 _ hacc
    · exact hacc
  · simp only [checkDistanceMilestones]
    set aq := (if 402336/1000 ≤ distance ∧ jsFalsy (prev MilestoneLabel.quarterMile) = true
        then Function.update prev MilestoneLabel.quarterMile (some elapsed) else prev)
      with haq
    have h1 : aq k = some t := by
      rw [haq]
      split_ifs with h1
      · exact update_guarded_preserves prev prev k _ t hset ht h1.2 _ hset
      · exact hset
    split_ifs with h2
    · exact update_guarded_preserves prev aq k _ t hset ht h2.2 _ h1
    · exact h1
  · unfold stopInterpolation
    split_ifs with hlen
    · refine foldl_entry_preserved stopTargets _ k t ?_ prev hset
      intro acc x hacc
      dsimp only
      split_ifs with hg
      · rcases MultiPassInterpolator.findTimeForSpeed sqrtFn dataPoints x.1 with _ | t'
        · exact hacc
        · exact update_guarded_preserves prev acc k x.2 t hset ht hg.1 _ hacc
      · exact hacc
    · exact hset

/-- Witness for the amended C4: an entry recorded as `3/2` s survives a
re-crossing speed check, a distance check, and the stop interpolation. -/
theorem C4_nonzero_write_once_witness :
    checkSpeedMilestones [(100, MilestoneLabel.s100)] 100 2
        (Function.update (fun _ => none) MilestoneLabel.s100 (some (3/2)))
        MilestoneLabel.s100 = some (3/2) ∧
    checkDistanceMilestones 500 2
        (Function.update (fun _ => none) MilestoneLabel.s100 (some (3/2)))
        MilestoneLabel.s100 = some (3/2) ∧
    stopInterpolation (fun _ => 0) []
        (Function.update (fun _ => none) MilestoneLabel.s100 (some (3/2)))
        MilestoneLabel.s100 = some (3/2) :=
  C4_nonzero_write_once [(100, MilestoneLabel.s100)] 100 2 500 (fun _ => 0) []
    (Function.update (fun _ => none) MilestoneLabel.s100 (some (3/2)))
    MilestoneLabel.s100 (3/2) (by simp [Function.update]) (by norm_num)

/-- **C3, counterexample.** With a position-derived estimate of 10 m/s and a
valid reported speed of 9 m/s (relative difference ≈ 10.5% ≤ 25%, so no
divergence), `handlePosition` outputs the position-derived 10 m/s — the
receiver's reported speed is NOT preferred; it is only a fallback for a zero
position-derived value and a validation bound on divergence. -/
theorem C3_reported_not_preferred :
    GPSTracking.selectSpeedMs (some 10) (some 9) = 10 ∧ (10 : ℚ) ≠ 9 := by
  constructor
  · norm_num [GPSTracking.selectSpeedMs, abs_le, abs_of_nonneg]
  · norm_num

/-- **C3 (amended).** When the receiver reports a valid non-negative speed,
the POSITION-DERIVED estimate is preferred whenever it is nonzero; the
reported speed is used only when the position-derived value is `0` (the
calculation failed or gave zero); and when the two diverge by more than 25%
of their average at average speed above 2.78 m/s, the lower of the two is
used. -/
theorem C3_position_derived_preferred (c g : ℚ) (hg : 0 ≤ g) :
    GPSTracking.selectSpeedMs (some 0) (some g) = g ∧
    (c ≠ 0 → GPSTracking.selectSpeedMs (some c) (some g) =
      if 25 < GPSTracking.diffPercentOf c g ∧ 278/100 < (c + g) / 2 then min c g
      else c) := by
  constructor
  · simp [GPSTracking.selectSpeedMs, hg]
  · intro hc
    simp only [GPSTracking.selectSpeedMs, GPSTracking.diffPercentOf, Option.getD_some]
    rw [if_pos hg, if_neg hc]
    by_cases havg : 278/100 < (c + g) / 2
    · have h0 : 0 < (c + g) / 2 := lt_trans (by norm_num) havg
      rw [if_pos h0]
    · rw [if_neg (fun h => havg h.2), if_neg (fun h => havg h.2)]

/-- Witness for the amended C3 at the concrete pair (10 m/s position-derived,
9 m/s reported). -/
theorem C3_position_derived_preferred_witness :
    GPSTracking.selectSpeedMs (some 0) (some 9) = 9 ∧
    ((10 : ℚ) ≠ 0 → GPSTracking.selectSpeedMs (some 10) (some 9) =
      if 25 < GPSTracking.diffPercentOf 10 9 ∧ 278/100 < ((10 : ℚ) + 9) / 2
      then min 10 9 else 10) :=
  C3_position_derived_preferred 10 9 (by norm_num)

/-- **C8, counterexample.** A teleportation-scale position-derived speed of
1000 m/s (3600 km/h) entering the tail of `handlePosition` with a fresh
filter is fused to `723600/221 ≈ 3274` km/h and DELIVERED: the only clamp is
the lower one (`Math.max(0, fusedSpeed)`), so the implausible value is
neither clamped to a plausible vehicle range nor zeroed, and it reaches both
`onSpeedUpdate` and the run trace. -/
theorem C8_implausible_speed_propagated :
    (GPSTracking.handlePositionTail 1000 0 [] 0 1 EKF1.init).finalSpeed
        = 723600/221 ∧
    (GPSTracking.handlePositionTail 1000 0 [] 0 1 EKF1.init).dataPoint.speed
        = 723600/221 ∧
    (400 : ℚ) < 723600/221 ∧ (723600/221 : ℚ) ≠ 0 := by
  have hin : GPSTracking.kalmanInput 1000 0 [] = 3600 := by
    norm_num [GPSTracking.kalmanInput, OutlierDetector.detectOutliers,
      OutlierDetector.medianAbsoluteDeviation, OutlierDetector.median,
      List.insertionSort, List.orderedInsert]
  refine ⟨?_, ?_, by norm_num, by norm_num⟩ <;>
    norm_num [GPSTracking.handlePositionTail, GPSTracking.updateKalmanFilter, hin,
      EKF1.predict, EKF1.update, EKF1.init, ekfUpdate, EKF1.q00, EKF1.q11,
      EKF1.r00, EKF1.r11]

/-- **C8 (amended).** The tail of `handlePosition` clamps the output speed
only from below, at zero (`Math.max(0, fusedSpeed)`): the delivered speed is
exactly `max 0 fused` and is non-negative, and the appended trace point
carries the same value; there is no upper plausibility clamp, so implausibly
large values propagate (see the counterexample). -/
theorem C8_lower_clamp_only (speedMs elapsed accelMagnitude dt : ℚ)
    (recentPrev : List DataPoint) (ekf : EKFState) :
    (GPSTracking.handlePositionTail speedMs elapsed recentPrev accelMagnitude
        dt ekf).finalSpeed =
      max 0 (GPSTracking.updateKalmanFilter
        (GPSTracking.kalmanInput speedMs elapsed recentPrev) accelMagnitude
        dt ekf).1 ∧
    0 ≤ (GPSTracking.handlePositionTail speedMs elapsed recentPrev
      accelMagnitude dt ekf).finalSpeed := by
  exact ⟨rfl, le_max_left 0 _⟩

/-- **C10.** Every speed the GPS pipeline delivers is non-negative: the tail
of `handlePosition` lower-clamps the fused speed at zero before it reaches
`onSpeedUpdate`, the appended run-trace point carries that same clamped
value, and the `fuseData` variant of the enhanced fusion hook also clamps
its returned km/h value at zero. -/
theorem C10_delivered_speed_nonneg (speedMs elapsed accelMagnitude dt : ℚ)
    (recentPrev : List DataPoint) (ekf : EKFState) (st : GPSTracking.FusionState)
    (gpsSpeedMs imuAccelMs2 deltaTime : ℚ) :
    0 ≤ (GPSTracking.handlePositionTail speedMs elapsed recentPrev
        accelMagnitude dt ekf).finalSpeed ∧
    (GPSTracking.handlePositionTail speedMs elapsed recentPrev accelMagnitude
        dt ekf).dataPoint.speed =
      (GPSTracking.handlePositionTail speedMs elapsed recentPrev accelMagnitude
        dt ekf).finalSpeed ∧
    0 ≤ (GPSTracking.fuseData st gpsSpeedMs imuAccelMs2 deltaTime).1 := by
  exact ⟨le_max_left 0 _, rfl, le_max_left 0 _⟩

end SpeedSnap
